import Mathlib

/-!
Shallow embedding of the quote-service core of `golang-tdd-example`:
the Forismatic quote client (`quote/quote.go`), the recipient store
(`recipient/recipient.go`) and the composing HTTP handler
(`handlers.go`, final version).  Machine-level concerns (the real
network, the real database) are modelled as explicit inputs: the
injected HTTP transport becomes a function from the built request to a
transport result, and the database becomes the result of the one query
the store runs.
-/

namespace InspiringQuotes

/-! ### JSON values

A JSON value, used both for upstream response bodies consumed by the
quote client and for the response body produced by the handler.  An
object is an ordered list of name/value pairs. -/

inductive Json where
  | null
  | jbool (b : Bool)
  | num (n : Int)
  | str (s : String)
  | arr (elems : List Json)
  | obj (fields : List (String × Json))
deriving Repr

/-! ### Quote record (quote/quote.go, type Quote)

Field names follow the Go struct; the json struct tags are
`quoteText`, `quoteAuthor`, `lang`. -/

structure Quote where
  Text : String
  Author : String
  Lang : String
deriving DecidableEq, Repr

/-- The bytes returned by reading the upstream response body: either not
valid JSON at all, or a JSON value. -/
inductive Body where
  | notJson
  | json (v : Json)

/-- Decode failures of `encoding/json.Unmarshal`: a syntax error (body is
not valid JSON) or a type error (a JSON value of the wrong type for the
target field or for the top-level struct). -/
inductive DecodeErr where
  | syntaxError
  | typeError
deriving DecidableEq, Repr

/-- First binding of a field name in a JSON object.  (Go's decoder
processes duplicate keys by sequential overwrite; no claim here involves
duplicate keys, and object field names are treated as unique.  Go also
falls back to case-insensitive field matching; the claims only concern
the exact tag names, so matching is exact.) -/
def lookupField (fields : List (String × Json)) (key : String) : Option Json :=
  (fields.find? (fun p => p.1 = key)).map Prod.snd

/-- `encoding/json` semantics for decoding one string-typed struct field:
an absent field leaves the zero value `""`; JSON `null` is a no-op; a
JSON string is taken; any other JSON value is a type error. -/
def decodeStringField (fields : List (String × Json)) (key : String) :
    Except DecodeErr String :=
  match lookupField fields key with
  | none => .ok ""
  | some .null => .ok ""
  | some (.str s) => .ok s
  | some _ => .error .typeError

/-- `json.Unmarshal(bodyBytes, &quote)` into the zero-valued `Quote`
struct (quote/quote.go lines 53-57).  Crucially, `Unmarshal` does NOT
fail when a field is absent: the field just keeps its zero value. -/
def unmarshalQuote : Body → Except DecodeErr Quote
  | .notJson => .error .syntaxError
  | .json .null => .ok ⟨"", "", ""⟩
  | .json (.obj fields) => do
    let text ← decodeStringField fields "quoteText"
    let author ← decodeStringField fields "quoteAuthor"
    let lang ← decodeStringField fields "lang"
    .ok ⟨text, author, lang⟩
  | .json _ => .error .typeError

/-! ### The transport abstraction (HTTPWrapper) -/

/-- Result of `ioutil.ReadAll(resp.Body)`: a read failure or the bytes. -/
inductive BodyRead where
  | readErr
  | bytes (b : Body)

/-- The observable part of an `*http.Response`: its status code and what
reading its body yields. -/
structure Response where
  statusCode : Nat
  body : BodyRead

/-- A transport-level failure of `HTTPWrapper.Do` (DNS, connection
refused, timeout). -/
inductive TransportErr where
  | netError
deriving DecidableEq, Repr

/-- The request the client hands to the injected transport: method, the
configured base URL, and the raw query string. -/
structure GenRequest where
  method : String
  url : String
  rawQuery : String
deriving DecidableEq, Repr

/-- An injected `HTTPWrapper`: `Do` returns `(*http.Response, error)`.
An `Except.ok none` result models the legal-in-Go combination of a nil
response together with a nil error. -/
def HTTPWrapper : Type := GenRequest → Except TransportErr (Option Response)

/-! ### The Forismatic client (quote/quote.go) -/

structure Forismatic where
  URL : String

/-- `http.NewRequest("GET", f.URL, nil)` followed by
`req.URL.RawQuery = fmt.Sprintf("method=getQuote&format=json&lang=%s", lang)`
(quote/quote.go lines 33-37).  The language code is interpolated into
the raw query verbatim; `fmt.Sprintf` performs no URL encoding.
(`NewRequest` can only fail if the configured URL is unparsable; base
URLs are assumed well formed here.) -/
def Forismatic.buildRequest (f : Forismatic) (lang : String) : GenRequest :=
  { method := "GET"
    url := f.URL
    rawQuery := "method=getQuote&format=json&lang=" ++ lang }

/-- The distinguishable failure kinds of `Forismatic.Generate`. -/
inductive GenError where
  | transportError
  | upstreamStatus
  | readError
  | decodeError (e : DecodeErr)
deriving DecidableEq, Repr

/-- Outcome of `Forismatic.Generate`: a quote, an error, or a runtime
nil-pointer dereference (`nilDeref`) when the body of a nil response is
read. -/
inductive GenResult where
  | ok (q : Quote)
  | err (e : GenError)
  | nilDeref
deriving DecidableEq, Repr

/-- `Forismatic.Generate` (quote/quote.go lines 31-61).  The source
guard is `if resp != nil && resp.StatusCode != http.StatusOK`; with a
nil response the guard is false and control reaches
`ioutil.ReadAll(resp.Body)`, which dereferences the nil response.  On a
successful decode the `Lang` field is overwritten with the requested
language code (`quote.Lang = lang`). -/
def Forismatic.Generate (f : Forismatic) (client : HTTPWrapper) (lang : String) :
    GenResult :=
  match client (f.buildRequest lang) with
  | .error _ => .err .transportError
  | .ok none => .nilDeref
  | .ok (some resp) =>
    if resp.statusCode ≠ 200 then
      .err .upstreamStatus
    else
      match resp.body with
      | .readErr => .err .readError
      | .bytes b =>
        match unmarshalQuote b with
        | .error e => .err (.decodeError e)
        | .ok q => .ok { q with Lang := lang }

/-! ### The recipient store (recipient/recipient.go) -/

/-- A recipient row (type Recipient); json struct tags are `id`,
`name`, `email`. -/
structure Recipient where
  ID : Int
  Name : String
  Email : String
deriving DecidableEq, Repr

/-- Failure of `rows.Scan` on one row. -/
inductive ScanErr where
  | scanFailure
deriving DecidableEq, Repr

/-- Failure of `p.DB.Query` itself. -/
inductive QueryErr where
  | queryFailure
deriving DecidableEq, Repr

/-- The row cursor produced by a successful `DB.Query`: the sequence of
rows in cursor order, each either scanning into a record or failing to
scan, together with the cursor's own terminal error status
(`rows.Err()`), which the source never consults. -/
structure RowsCursor where
  rows : List (Except ScanErr Recipient)
  iterErr : Option Unit

/-- A Go slice of recipients: `none` is the nil slice (the zero value of
`var recipients []Recipient`), `some` a non-nil slice. -/
def GoSlice : Type := Option (List Recipient)

/-- The recipient list a slice holds (nil holds the empty list). -/
def GoSlice.toList (s : GoSlice) : List Recipient := s.getD []

/-- Go's `append(recipients, r)`: appending to the nil slice allocates,
so the result is always non-nil. -/
def goAppend (s : GoSlice) (r : Recipient) : GoSlice :=
  some (s.toList ++ [r])

/-- Body of the `for rows.Next()` loop (recipient/recipient.go lines
31-36): a row that scans is appended, a row whose `rows.Scan` fails is
skipped with no other effect. -/
def scanStep (acc : GoSlice) (row : Except ScanErr Recipient) : GoSlice :=
  match row with
  | .ok r => goAppend acc r
  | .error _ => acc

/-- `Persistence.AllRecipients` (recipient/recipient.go lines 22-38):
propagate a query error; otherwise iterate the cursor, folding
`scanStep` over the rows starting from the nil slice.  `rows.Err()` is
never read, so `cursor.iterErr` does not influence the result. -/
def AllRecipients (queryResult : Except QueryErr RowsCursor) :
    Except QueryErr GoSlice :=
  match queryResult with
  | .error e => .error e
  | .ok cursor => .ok (cursor.rows.foldl scanStep (none : GoSlice))

/-- The record a row yields when its scan succeeds. -/
def scanOk : Except ScanErr Recipient → Option Recipient
  | .ok r => some r
  | .error _ => none

/-- The Go slice that results from appending each element of `l` in
order to the nil slice: nil when `l` is empty, non-nil otherwise. -/
def toGoSlice (l : List Recipient) : GoSlice :=
  if l.isEmpty then none else some l

/-! ### JSON marshalling (encoding/json.Marshal on the response types)

`Marshal` cannot fail on these flat struct types (strings and ints
only), so the handler's marshal-error branch is unreachable and the
model is total. -/

/-- Marshal of a (non-nil) `*quote.Quote`, following its struct tags. -/
def marshalQuote (q : Quote) : Json :=
  .obj [("quoteText", .str q.Text), ("quoteAuthor", .str q.Author),
        ("lang", .str q.Lang)]

/-- Marshal of one `recipient.Recipient`, following its struct tags. -/
def marshalRecipient (r : Recipient) : Json :=
  .obj [("id", .num r.ID), ("name", .str r.Name), ("email", .str r.Email)]

/-- Marshal of a `[]recipient.Recipient` slice: the nil slice marshals
to JSON `null`, a non-nil slice to a JSON array. -/
def marshalRecipients : GoSlice → Json
  | none => .null
  | some rs => .arr (rs.map marshalRecipient)

/-- Marshal of `HandleQuoteResponse` (handlers.go final version, lines
12-16): a two-field object with json tags `quote` and `recipients`. -/
def marshalHQR (q : Quote) (rs : GoSlice) : Json :=
  .obj [("quote", marshalQuote q), ("recipients", marshalRecipients rs)]

/-! ### The quote request handler (handlers.go final version) -/

/-- The handler's observable output: status code and body (`none` is the
empty body written by a bare `WriteHeader`). -/
structure HttpResponse where
  status : Nat
  body : Option Json

/-- `server.handleQuotes` (handlers.go final version, lines 18-48),
parametrised by what the two injected collaborators return for this
request.  The second component of the result records whether
`recipientsFetcher.AllRecipients` was invoked.  On a quote-client error
the handler writes 500 and returns before ever touching the recipient
store; on a store error it writes 500; on both successes it writes 200
and the marshalled two-field body. -/
def handleQuotes (quoteResult : Except GenError Quote)
    (recipientsResult : Except QueryErr GoSlice) : HttpResponse × Bool :=
  match quoteResult with
  | .error _ => ({ status := 500, body := none }, false)
  | .ok q =>
    match recipientsResult with
    | .error _ => ({ status := 500, body := none }, true)
    | .ok recipients =>
      ({ status := 200, body := some (marshalHQR q recipients) }, true)

/-! ### What a standard receiver sees: net/url query parsing

`Forismatic.Generate` puts the language code into the raw query string
verbatim.  To state what parameters that query "carries", we model the
standard query parser (Go 1.12 `net/url.parseQuery`, the version the
repository targets): segments split on `&` or `;`, empty segments
skipped, each segment split at its first `=`, key and value
percent-decoded with `+` meaning space, pairs whose key or value fails
to decode skipped.  (Decoding is modelled per character rather than per
byte; the two agree on every input appearing in the claims.) -/

/-- Query segment separators of Go 1.12 `net/url.parseQuery`. -/
def isQuerySep (c : Char) : Bool := c = '&' || c = ';'

/-- Split a character list on separators; a separator between two
segments belongs to neither. -/
def splitSep (sep : Char → Bool) : List Char → List (List Char)
  | [] => [[]]
  | c :: cs =>
    if sep c then
      [] :: splitSep sep cs
    else
      match splitSep sep cs with
      | [] => [[c]]
      | s :: ss => (c :: s) :: ss

/-- Split a segment at its first `=`: the key is everything before it,
the value everything after; a segment with no `=` has the empty value. -/
def splitFirstEq : List Char → List Char × List Char
  | [] => ([], [])
  | c :: rest =>
    if c = '=' then
      ([], rest)
    else
      let p := splitFirstEq rest
      (c :: p.1, p.2)

/-- Value of a hexadecimal digit. -/
def hexVal (c : Char) : Option Nat :=
  if '0' ≤ c ∧ c ≤ '9' then some (c.toNat - '0'.toNat)
  else if 'a' ≤ c ∧ c ≤ 'f' then some (c.toNat - 'a'.toNat + 10)
  else if 'A' ≤ c ∧ c ≤ 'F' then some (c.toNat - 'A'.toNat + 10)
  else none

/-- `net/url.QueryUnescape`: `%XY` decodes to the character with code
`16*X + Y` (failing on a malformed escape), `+` decodes to space, every
other character stands for itself. -/
def queryUnescape : List Char → Option (List Char)
  | [] => some []
  | c :: rest =>
    if c = '%' then
      match rest with
      | c1 :: c2 :: rest2 =>
        match hexVal c1, hexVal c2 with
        | some hi, some lo =>
          (queryUnescape rest2).map (fun t => Char.ofNat (16 * hi + lo) :: t)
        | _, _ => none
      | _ => none
    else if c = '+' then
      (queryUnescape rest).map (fun t => ' ' :: t)
    else
      (queryUnescape rest).map (fun t => c :: t)

/-- Parse one nonempty segment into a decoded key/value pair, or skip
it when either side fails to decode. -/
def parsePair (seg : List Char) : Option (String × String) :=
  if seg = [] then none
  else
    let p := splitFirstEq seg
    match queryUnescape p.1, queryUnescape p.2 with
    | some k, some v => some (String.mk k, String.mk v)
    | _, _ => none

/-- The ordered key/value pairs a standard receiver extracts from a raw
query string. -/
def parseGoQuery (q : String) : List (String × String) :=
  (splitSep isQuerySep q.data).filterMap parsePair

/-! ## Supporting lemmas -/

/-- Folding `scanStep` from a non-nil slice appends exactly the
successfully scanned rows. -/
theorem scanStep_foldl_some (rows : List (Except ScanErr Recipient))
    (acc : List Recipient) :
    rows.foldl scanStep (some acc) = some (acc ++ rows.filterMap scanOk) := by
  induction rows generalizing acc with
  | nil => simp
  | cons row rest ih =>
    cases row with
    | ok r =>
      simp [scanStep, goAppend, GoSlice.toList, scanOk, ih]
    | error e =>
      simp [scanStep, scanOk, ih]

/-- Folding `scanStep` from the nil slice yields the slice holding
exactly the successfully scanned rows, and that slice is nil precisely
when no row scanned. -/
theorem scanStep_foldl_none (rows : List (Except ScanErr Recipient)) :
    rows.foldl scanStep (none : GoSlice) = toGoSlice (rows.filterMap scanOk) := by
  induction rows with
  | nil => rfl
  | cons row rest ih =>
    cases row with
    | ok r =>
      simp only [List.foldl_cons, scanStep, goAppend, GoSlice.toList, Option.getD]
      rw [scanStep_foldl_some]
      simp [toGoSlice, scanOk]
    | error e =>
      simp only [List.foldl_cons, scanStep]
      rw [ih]
      simp [toGoSlice, scanOk]

/-- The list a `toGoSlice` slice holds is the original list. -/
theorem toGoSlice_toList (l : List Recipient) : (toGoSlice l).toList = l := by
  cases l with
  | nil => rfl
  | cons a l => rfl

/-! ## Claims -/

/-- Claim C1: for every inbound request, the handler responds 200 with
both `quote` and `recipients` populated when both collaborators
succeed; responds 500 with an empty body when the quote client fails,
and in that case the recipient store is never invoked; and responds 500
with an empty body when the quote client succeeds but the recipient
store fails. -/
theorem handleQuotes_outcomes (e : GenError) (q : Quote) (e2 : QueryErr)
    (rs : GoSlice) (rr : Except QueryErr GoSlice) :
    handleQuotes (.error e) rr = ({ status := 500, body := none }, false) ∧
    handleQuotes (.ok q) (.error e2) = ({ status := 500, body := none }, true) ∧
    handleQuotes (.ok q) (.ok rs) =
      ({ status := 200, body := some (marshalHQR q rs) }, true) :=
  ⟨rfl, rfl, rfl⟩

/-- Claim C2: when both collaborators succeed, the 200 response body is
a JSON object with exactly the two field names `quote` (an object with
fields `quoteText`, `quoteAuthor`, `lang`) and `recipients` (the
sequence of recipient objects, each with fields `id`, `name`,
`email`).  The first conjunct pins the exact two field names and the
quote object for every successful store result; the second pins the
recipient array for a populated slice (the nil slice is claim C9's
subject). -/
theorem response_body_field_names (q : Quote) (rs : List Recipient)
    (s : GoSlice) :
    (handleQuotes (.ok q) (.ok s)).1 =
      { status := 200
        body := some (.obj
          [("quote", .obj [("quoteText", .str q.Text),
                           ("quoteAuthor", .str q.Author),
                           ("lang", .str q.Lang)]),
           ("recipients", marshalRecipients s)]) } ∧
    marshalRecipients (some rs) =
      .arr (rs.map (fun r =>
        .obj [("id", .num r.ID), ("name", .str r.Name),
              ("email", .str r.Email)])) :=
  ⟨rfl, rfl⟩

/-- Claim C7: for every row sequence of a successfully executed query,
`AllRecipients` returns exactly the rows whose scan succeeded, in
cursor order, and a row whose scan fails is skipped without failing the
call. -/
theorem allRecipients_scanned_rows (rows : List (Except ScanErr Recipient))
    (ie : Option Unit) :
    AllRecipients (.ok ⟨rows, ie⟩) = .ok (toGoSlice (rows.filterMap scanOk)) ∧
    (toGoSlice (rows.filterMap scanOk)).toList = rows.filterMap scanOk := by
  constructor
  · show Except.ok (rows.foldl scanStep none) = _
    rw [scanStep_foldl_none]
  · exact toGoSlice_toList _

/-- Claim C8: `AllRecipients` returns an error exactly when the query
itself failed; after a successful query the call returns a nil error
whatever the rows, and the cursor's own error status is never
consulted (results for differing cursor statuses coincide). -/
theorem allRecipients_error_iff_query (e : QueryErr)
    (rows : List (Except ScanErr Recipient)) (ie ie1 ie2 : Option Unit) :
    AllRecipients (.error e) = .error e ∧
    (∃ s, AllRecipients (.ok ⟨rows, ie⟩) = .ok s) ∧
    AllRecipients (.ok ⟨rows, ie1⟩) = AllRecipients (.ok ⟨rows, ie2⟩) :=
  ⟨rfl, ⟨_, rfl⟩, rfl⟩

/-- Claim C9: when the query succeeds but no row scans (for example the
table is empty), `AllRecipients` returns the nil slice, and the handler
serializes the `recipients` field of the 200 response as JSON `null`,
which is not the empty array. -/
theorem nil_slice_serializes_null (q : Quote)
    (rows : List (Except ScanErr Recipient)) (ie : Option Unit)
    (h : rows.filterMap scanOk = []) :
    AllRecipients (.ok ⟨rows, ie⟩) = .ok (none : GoSlice) ∧
    handleQuotes (.ok q) (.ok (none : GoSlice)) =
      ({ status := 200
         body := some (.obj [("quote", marshalQuote q),
                             ("recipients", Json.null)]) }, true) ∧
    Json.null ≠ Json.arr [] := by
  refine ⟨?_, rfl, fun hn => Json.noConfusion hn⟩
  show Except.ok (rows.foldl scanStep none) = _
  rw [scanStep_foldl_none, h]
  rfl

/-- Witness for C9 at a cursor holding one unscannable row. -/
theorem nil_slice_serializes_null_witness :
    AllRecipients (.ok ⟨[.error .scanFailure], none⟩) = .ok (none : GoSlice) ∧
    handleQuotes (.ok ⟨"Bla Bla Bla", "Bob", "en"⟩) (.ok (none : GoSlice)) =
      ({ status := 200
         body := some (.obj [("quote", marshalQuote ⟨"Bla Bla Bla", "Bob", "en"⟩),
                             ("recipients", Json.null)]) }, true) ∧
    Json.null ≠ Json.arr [] :=
  nil_slice_serializes_null ⟨"Bla Bla Bla", "Bob", "en"⟩
    [.error .scanFailure] none rfl

/-- Claim C4: every successful `Generate lang` call returns a quote
whose `Lang` field equals the requested language code, whatever the
upstream body contained (the decoded value is overwritten). -/
theorem generate_lang_invariant (f : Forismatic) (client : HTTPWrapper)
    (lang : String) (q : Quote)
    (h : f.Generate client lang = .ok q) : q.Lang = lang := by
  unfold Forismatic.Generate at h
  split at h
  · exact GenResult.noConfusion h
  · exact GenResult.noConfusion h
  · split at h
    · exact GenResult.noConfusion h
    · split at h
      · exact GenResult.noConfusion h
      · split at h
        · exact GenResult.noConfusion h
        · cases h
          rfl

/-- Witness for C4 at an upstream body whose own `lang` field says
`fr` while the caller requested `en`. -/
theorem generate_lang_invariant_witness :
    (Quote.mk "Bla Bla Bla" "Bob" "en").Lang = "en" :=
  generate_lang_invariant ⟨"http://api.forismatic.com/api/1.0/"⟩
    (fun _ => .ok (some ⟨200, .bytes (.json (.obj
      [("quoteText", .str "Bla Bla Bla"), ("quoteAuthor", .str "Bob"),
       ("lang", .str "fr")]))⟩))
    "en" ⟨"Bla Bla Bla", "Bob", "en"⟩ rfl

/-- Claim C5: for every response whose status code is not 200,
`Generate` returns the upstream-status error, for every response body
(the body is quantified, so the outcome is independent of it and the
body is never read or parsed). -/
theorem generate_non200_ignores_body (f : Forismatic) (client : HTTPWrapper)
    (lang : String) (c : Nat) (b : BodyRead)
    (h : client (f.buildRequest lang) = .ok (some ⟨c, b⟩))
    (hc : c ≠ 200) :
    f.Generate client lang = .err .upstreamStatus := by
  unfold Forismatic.Generate
  rw [h]
  exact if_pos hc

/-- Witness for C5 at a 500 response carrying a well-formed JSON
body. -/
theorem generate_non200_ignores_body_witness :
    Forismatic.Generate ⟨"http://api.forismatic.com/api/1.0/"⟩
      (fun _ => .ok (some ⟨500, .bytes (.json (.obj
        [("quoteText", .str "Bla Bla Bla"), ("quoteAuthor", .str "Bob")]))⟩))
      "en" = .err .upstreamStatus :=
  generate_non200_ignores_body ⟨"http://api.forismatic.com/api/1.0/"⟩
    (fun _ => .ok (some ⟨500, .bytes (.json (.obj
      [("quoteText", .str "Bla Bla Bla"), ("quoteAuthor", .str "Bob")]))⟩))
    "en" 500 (.bytes (.json (.obj
      [("quoteText", .str "Bla Bla Bla"), ("quoteAuthor", .str "Bob")])))
    rfl (by decide)

/-- Claim C10: `Generate` hits the nil dereference in the body read
exactly when the injected transport returns a nil response together
with a nil error; under the precondition that this combination never
occurs, the call is panic-free. -/
theorem generate_nilDeref_iff (f : Forismatic) (client : HTTPWrapper)
    (lang : String) :
    f.Generate client lang = .nilDeref ↔
      client (f.buildRequest lang) = .ok none := by
  unfold Forismatic.Generate
  rcases hcr : client (f.buildRequest lang) with e | o
  · simp
  · rcases o with _ | resp
    · simp
    · obtain ⟨c, b⟩ := resp
      by_cases h200 : c ≠ 200
      · simp [h200]
      · rcases b with _ | bb
        · simp [h200]
        · rcases hu : unmarshalQuote bb with e | q0
          · simp [h200, hu]
          · simp [h200, hu]

/-- A field absent from the object decodes to the zero value. -/
theorem decodeStringField_absent (fields : List (String × Json)) (key : String)
    (h : lookupField fields key = none) :
    decodeStringField fields key = .ok "" := by
  unfold decodeStringField
  rw [h]

/-- Unmarshalling a JSON object that lacks the `quoteText`,
`quoteAuthor` and `lang` keys succeeds, leaving every field at its zero
value. -/
theorem unmarshal_missing_fields (fields : List (String × Json))
    (hT : lookupField fields "quoteText" = none)
    (hA : lookupField fields "quoteAuthor" = none)
    (hL : lookupField fields "lang" = none) :
    unmarshalQuote (.json (.obj fields)) = .ok ⟨"", "", ""⟩ := by
  simp only [unmarshalQuote]
  rw [decodeStringField_absent fields "quoteText" hT,
    decodeStringField_absent fields "quoteAuthor" hA,
    decodeStringField_absent fields "lang" hL]
  rfl

/-- Counterexample to claim C3 as stated: a 200 response whose body is
the valid JSON object with no fields at all — hence missing both the
quote-text and the quote-author field — makes `Generate` succeed with
empty strings instead of returning a decode error of either kind. -/
theorem missing_fields_no_decode_error :
    Forismatic.Generate ⟨"http://api.forismatic.com/api/1.0/"⟩
      (fun _ => .ok (some ⟨200, .bytes (.json (.obj []))⟩)) "en" =
      .ok ⟨"", "", "en"⟩ ∧
    Forismatic.Generate ⟨"http://api.forismatic.com/api/1.0/"⟩
      (fun _ => .ok (some ⟨200, .bytes (.json (.obj []))⟩)) "en" ≠
      .err (.decodeError .syntaxError) ∧
    Forismatic.Generate ⟨"http://api.forismatic.com/api/1.0/"⟩
      (fun _ => .ok (some ⟨200, .bytes (.json (.obj []))⟩)) "en" ≠
      .err (.decodeError .typeError) :=
  ⟨rfl, by decide, by decide⟩

/-- Claim C3 amended: `Generate` returns a decode error when the 200
response body is not valid JSON; but when the body is valid JSON
missing the quote-text and quote-author fields (and any `lang` field),
it succeeds, returning a quote whose text and author are empty
strings. -/
theorem decode_error_only_for_malformed_json (f : Forismatic)
    (cNJ cM : HTTPWrapper) (lang : String) (fields : List (String × Json))
    (hNJ : cNJ (f.buildRequest lang) = .ok (some ⟨200, .bytes .notJson⟩))
    (hM : cM (f.buildRequest lang) =
      .ok (some ⟨200, .bytes (.json (.obj fields))⟩))
    (hT : lookupField fields "quoteText" = none)
    (hA : lookupField fields "quoteAuthor" = none)
    (hL : lookupField fields "lang" = none) :
    f.Generate cNJ lang = .err (.decodeError .syntaxError) ∧
    f.Generate cM lang = .ok ⟨"", "", lang⟩ := by
  constructor
  · unfold Forismatic.Generate
    rw [hNJ]
    rfl
  · unfold Forismatic.Generate
    rw [hM]
    show (match unmarshalQuote (.json (.obj fields)) with
      | .error e => GenResult.err (.decodeError e)
      | .ok q => .ok { q with Lang := lang }) = _
    rw [unmarshal_missing_fields fields hT hA hL]

/-- Witness for the amended C3 at a concrete unparsable body and a
concrete field-free JSON body. -/
theorem decode_error_only_for_malformed_json_witness :
    Forismatic.Generate ⟨"http://api.forismatic.com/api/1.0/"⟩
      (fun _ => .ok (some ⟨200, .bytes .notJson⟩)) "en" =
      .err (.decodeError .syntaxError) ∧
    Forismatic.Generate ⟨"http://api.forismatic.com/api/1.0/"⟩
      (fun _ => .ok (some ⟨200, .bytes (.json (.obj [("foo", .str "bar")]))⟩))
      "en" = .ok ⟨"", "", "en"⟩ :=
  decode_error_only_for_malformed_json ⟨"http://api.forismatic.com/api/1.0/"⟩
    (fun _ => .ok (some ⟨200, .bytes .notJson⟩))
    (fun _ => .ok (some ⟨200, .bytes (.json (.obj [("foo", .str "bar")]))⟩))
    "en" [("foo", .str "bar")] rfl rfl rfl rfl rfl

/-! ## Lemmas about the query parser -/

/-- A separator-free character list is a single segment. -/
theorem splitSep_sepFree (sep : Char → Bool) (xs : List Char)
    (h : ∀ c ∈ xs, sep c = false) :
    splitSep sep xs = [xs] := by
  induction xs with
  | nil => rfl
  | cons c cs ih =>
    have hc : sep c = false := h c (List.mem_cons_self c cs)
    have ih2 := ih (fun d hd => h d (List.mem_cons_of_mem c hd))
    simp [splitSep, hc, ih2]

/-- Splitting a list whose first separator occurrence follows a
separator-free prefix peels off that prefix as a segment. -/
theorem splitSep_append_sep (sep : Char → Bool) (xs : List Char) (a : Char)
    (ys : List Char) (hxs : ∀ c ∈ xs, sep c = false) (ha : sep a = true) :
    splitSep sep (xs ++ a :: ys) = xs :: splitSep sep ys := by
  induction xs with
  | nil => simp [splitSep, ha]
  | cons c cs ih =>
    have hc : sep c = false := hxs c (List.mem_cons_self c cs)
    have ih2 := ih (fun d hd => hxs d (List.mem_cons_of_mem c hd))
    simp [splitSep, hc, ih2]

/-- Splitting a segment at the `=` that follows an `=`-free key yields
the key and the value. -/
theorem splitFirstEq_append (xs ys : List Char) (h : '=' ∉ xs) :
    splitFirstEq (xs ++ '=' :: ys) = (xs, ys) := by
  induction xs with
  | nil => simp [splitFirstEq]
  | cons c cs ih =>
    have hc : c ≠ '=' := fun e => h (e ▸ List.mem_cons_self c cs)
    have ih2 := ih (fun hm => h (List.mem_cons_of_mem c hm))
    simp [splitFirstEq, hc, ih2]

/-- A list containing neither `%` nor `+` unescapes to itself. -/
theorem queryUnescape_plain (xs : List Char)
    (h : ∀ c ∈ xs, c ≠ '%' ∧ c ≠ '+') :
    queryUnescape xs = some xs := by
  induction xs with
  | nil => rfl
  | cons c cs ih =>
    obtain ⟨h1, h2⟩ := h c (List.mem_cons_self c cs)
    have ih2 := ih (fun d hd => h d (List.mem_cons_of_mem c hd))
    rw [queryUnescape.eq_def]
    simp [h1, h2, ih2]

/-- A segment made of an escape-free, `=`-free key and an escape-free
value parses to exactly that pair. -/
theorem parsePair_keyval (k v : List Char) (hk : '=' ∉ k)
    (hkp : ∀ c ∈ k, c ≠ '%' ∧ c ≠ '+') (hvp : ∀ c ∈ v, c ≠ '%' ∧ c ≠ '+') :
    parsePair (k ++ '=' :: v) = some (String.mk k, String.mk v) := by
  have hne : k ++ '=' :: v ≠ [] := by cases k <;> simp
  unfold parsePair
  rw [if_neg hne]
  simp only [splitFirstEq_append k v hk]
  simp [queryUnescape_plain k hkp, queryUnescape_plain v hvp]

/-- Counterexample to claim C6 as stated: for the language code
`x&y=z` the built query string does not carry exactly the three
parameters `method`, `format` and `lang` with the language code
standard-encoded — the unencoded interpolation makes a receiver see
`lang=x` plus an injected fourth parameter `y=z`. -/
theorem query_params_cex :
    ¬ (((Forismatic.mk "http://api.forismatic.com/api/1.0/").buildRequest
          "x&y=z").method = "GET" ∧
       parseGoQuery (((Forismatic.mk "http://api.forismatic.com/api/1.0/").buildRequest
          "x&y=z").rawQuery) =
         [("method", "getQuote"), ("format", "json"), ("lang", "x&y=z")]) := by
  decide

/-- Claim C6 amended: the client issues a GET request whose raw query
string is the verbatim, unencoded interpolation
`method=getQuote&format=json&lang=<code>`; whenever the language code
contains none of the query metacharacters `&`, `;`, `=`, `%`, `+`, a
standard receiver extracts exactly the parameters `method=getQuote`,
`format=json` and `lang=<code>`. -/
theorem query_params_verbatim (f : Forismatic) (lang : String)
    (h : ∀ c ∈ lang.data, c ≠ '&' ∧ c ≠ ';' ∧ c ≠ '=' ∧ c ≠ '%' ∧ c ≠ '+') :
    (f.buildRequest lang).method = "GET" ∧
    (f.buildRequest lang).rawQuery =
      "method=getQuote&format=json&lang=" ++ lang ∧
    parseGoQuery (f.buildRequest lang).rawQuery =
      [("method", "getQuote"), ("format", "json"), ("lang", lang)] := by
  refine ⟨rfl, rfl, ?_⟩
  unfold parseGoQuery
  have hq : (f.buildRequest lang).rawQuery.data =
      "method=getQuote".data ++ '&' ::
        ("format=json".data ++ '&' :: ("lang".data ++ '=' :: lang.data)) := by
    show ("method=getQuote&format=json&lang=" ++ lang).data = _
    rw [String.data_append]
    rfl
  have hsep3 : ∀ c ∈ "lang".data ++ '=' :: lang.data, isQuerySep c = false := by
    intro c hc
    rcases List.mem_append.mp hc with hc1 | hc2
    · have hall : ∀ c ∈ "lang".data, isQuerySep c = false := by decide
      exact hall c hc1
    · rcases List.mem_cons.mp hc2 with rfl | hc3
      · rfl
      · obtain ⟨n1, n2, -, -, -⟩ := h c hc3
        simp [isQuerySep, n1, n2]
  have hpair3 : parsePair ("lang".data ++ '=' :: lang.data) =
      some ("lang", lang) := by
    rw [parsePair_keyval "lang".data lang.data (by decide) (by decide)
      (fun c hc => ⟨(h c hc).2.2.2.1, (h c hc).2.2.2.2⟩)]
  have hpair1 : parsePair "method=getQuote".data =
      some ("method", "getQuote") := by decide
  have hpair2 : parsePair "format=json".data = some ("format", "json") := by
    decide
  rw [hq,
    splitSep_append_sep isQuerySep "method=getQuote".data '&' _
      (by decide) (by decide),
    splitSep_append_sep isQuerySep "format=json".data '&' _
      (by decide) (by decide),
    splitSep_sepFree isQuerySep _ hsep3]
  have hpair3c : parsePair ('l' :: 'a' :: 'n' :: 'g' :: '=' :: lang.data) =
      some ("lang", lang) := hpair3
  simp [List.filterMap_cons, hpair1, hpair2, hpair3c]

/-- Witness for the amended C6 at the language code `en`. -/
theorem query_params_verbatim_witness :
    (((Forismatic.mk "http://api.forismatic.com/api/1.0/").buildRequest
        "en").method = "GET") ∧
    parseGoQuery (((Forismatic.mk "http://api.forismatic.com/api/1.0/").buildRequest
        "en").rawQuery) =
      [("method", "getQuote"), ("format", "json"), ("lang", "en")] :=
  ⟨(query_params_verbatim ⟨"http://api.forismatic.com/api/1.0/"⟩ "en"
      (by decide)).1,
   (query_params_verbatim ⟨"http://api.forismatic.com/api/1.0/"⟩ "en"
      (by decide)).2.2⟩

end InspiringQuotes
